import Mathlib

/-!
# Verification of the financial ledger core

Shallow embedding, in Lean 4, of the financial core of the repository
(finance app: `models.py`, `services.py`, `views.py`): calendar dates and the
month-advancing helper, the installment generator, the transaction status
state machine, the category classifier, and the phase-filtered monthly
aggregation used by the DRE and cashflow builders.  Money amounts are modeled
as integer cents (`Int`), matching the 2-decimal fixed-point `Decimal` fields
of the source.
-/

namespace MarcelleFlow

/-! ## Calendar dates

Python `datetime.date` values are triples (year, month, day) that are always
valid Gregorian dates.  The embedding carries arbitrary triples and a
`Date.Valid` predicate for the range conditions that `datetime.date`
guarantees by construction. -/

structure Date where
  year : Int
  month : Nat
  day : Nat
deriving DecidableEq, Repr

/-- Gregorian leap-year rule, as implemented by the Python `calendar`
and `datetime` modules. -/
def isLeapYear (y : Int) : Bool :=
  (y % 4 == 0 && y % 100 != 0) || (y % 400 == 0)

/-- Number of days of month `m` of year `y` in the Gregorian calendar
(the month lengths used by `datetime.date`). -/
def daysInMonth (y : Int) (m : Nat) : Nat :=
  if m = 2 then (if isLeapYear y then 29 else 28)
  else if m = 4 ∨ m = 6 ∨ m = 9 ∨ m = 11 then 30
  else 31

/-- A (year, month, day) triple is a real calendar date. -/
def Date.Valid (d : Date) : Prop :=
  1 ≤ d.month ∧ d.month ≤ 12 ∧ 1 ≤ d.day ∧ d.day ≤ daysInMonth d.year d.month

instance (d : Date) : Decidable d.Valid := by
  unfold Date.Valid; infer_instance

/-- Linear key giving the calendar order on valid dates (months and days are
below 100, so the lexicographic order coincides with this key order). -/
def Date.key (d : Date) : Int :=
  d.year * 10000 + (d.month : Int) * 100 + (d.day : Int)

/-- Strict calendar order on dates (the `<` of Python `datetime.date`). -/
def Date.ltB (a b : Date) : Bool := a.key < b.key

/-- Calendar order on dates (the `<=` of Python `datetime.date`). -/
def Date.leB (a b : Date) : Bool := a.key ≤ b.key

/-- `_last_day_of_month` from `src/finance/services.py` (lines 34-38): for
December it returns December 31 directly; otherwise it returns the day before
the first of the next month, which is day `daysInMonth y m` of the same
month. -/
def lastDayOfMonth (value : Date) : Date :=
  if value.month = 12 then ⟨value.year, 12, 31⟩
  else ⟨value.year, value.month, daysInMonth value.year value.month⟩

/-- `_add_months` from `src/finance/views.py` (lines 330-334 and 1021-1025,
both copies are identical): advance `base` by `months` calendar months,
clamping the day with `min(base.day, last_day_of_month(target).day)`.
Python `//` and `%` on nonnegative integers are `Nat` division and modulus. -/
def addMonths (base : Date) (months : Nat) : Date :=
  let total := base.month - 1 + months
  let year := base.year + (total / 12 : Nat)
  let month := total % 12 + 1
  let day := min base.day (lastDayOfMonth ⟨year, month, 1⟩).day
  ⟨year, month, day⟩

/-! ## Installment generator: amounts

Both generator paths compute
`base_value = (total_amount / installments).quantize(Decimal('0.01'))` and
`remainder = total_amount - base_value * installments`
(`src/finance/views.py` lines 362-363 for the expense split and lines
1141-1142 for the work-order billing path).  `Decimal.quantize` uses the
default context rounding ROUND_HALF_EVEN, so in integer cents the base is
`total / n` rounded to the nearest integer with ties to the even integer.
The totals are 2-decimal `Decimal` fields, so a total is a whole number of
cents and the quotient of two such values is exact as a rational; the
28-digit working precision of `Decimal` division cannot move it across a
rounding boundary for the denominators in range here. -/

/-- `total / n` in integer cents, rounded half-even (the
`quantize(Decimal('0.01'))` of the source applied to `total / installments`). -/
def roundHalfEvenDiv (t n : Nat) : Nat :=
  let q := t / n
  let r := t % n
  if 2 * r < n then q
  else if n < 2 * r then q + 1
  else if q % 2 = 0 then q else q + 1

/-- Amount of each installment created by `WorkOrderPaymentView.post`
(`src/finance/views.py` lines 1141-1156): every index gets `base_value`, and
the last index additionally receives the remainder. -/
def workOrderInstallmentAmounts (t n : Nat) : List Int :=
  let base : Int := roundHalfEvenDiv t n
  let remainder : Int := (t : Int) - base * n
  (List.range n).map (fun idx => if idx = n - 1 then base + remainder else base)

/-- Amount of each installment created by
`TransactionCreateView._create_expense_installments`
(`src/finance/views.py` lines 362-370): same computation as the work-order
path. -/
def expenseInstallmentAmounts (t n : Nat) : List Int :=
  let base : Int := roundHalfEvenDiv t n
  let remainder : Int := (t : Int) - base * n
  (List.range n).map (fun idx => if idx = n - 1 then base + remainder else base)

/-- Due date of installment `idx` in `WorkOrderPaymentView.post`
(`src/finance/views.py` line 1158): the first due date itself for index 0,
otherwise `_add_months(first_due_date, idx)`. -/
def workOrderDueDate (firstDueDate : Date) (idx : Nat) : Date :=
  if idx = 0 then firstDueDate else addMonths firstDueDate idx

/-- Due date of installment `idx` in `_create_expense_installments`
(`src/finance/views.py` line 372): `_add_months(first_due_date, idx)`. -/
def expenseDueDate (firstDueDate : Date) (idx : Nat) : Date :=
  addMonths firstDueDate idx

/-- Claim-side definition following the words of the spec for C7:
`base = floor(total / N, 2 decimals)`, every non-last installment gets the
base and the last gets `base + (total - base * N)`.  In integer cents the
floored base is plain `Nat` division. -/
def floorInstallmentAmountsSpec (t n : Nat) : List Int :=
  let base : Int := (t / n : Nat)
  let remainder : Int := (t : Int) - base * n
  (List.range n).map (fun idx => if idx = n - 1 then base + remainder else base)

/-! ## Ledger entities

Only the fields that the verified behaviors read are carried.  The category
reference of a transaction is inlined (id, name, kind, DRE group), matching
the joined columns the reports read
(`category__nome`, `category__dre_group`, `category_id`). -/

/-- Transaction and category kind (`tipo`): income or expense. -/
inductive Tipo
  | receita
  | despesa
deriving DecidableEq, Repr

/-- Transaction lifecycle status (`STATUS_CHOICES` of
`src/finance/models.py`). -/
inductive Status
  | previsto
  | realizado
  | atrasado
  | cancelado
deriving DecidableEq, Repr

/-- The seven DRE groups (`DRE_GROUP_CHOICES` of `src/finance/models.py`).
A category stores one of them or blank; blank is `none` here. -/
inductive DreGroup
  | receitaOperacional
  | impostosVenda
  | cmv
  | despesasVenda
  | despesasFinanceiras
  | receitaFinanceira
  | despesasGeraisAdm
deriving DecidableEq, Repr

/-- A financial transaction (`Transaction` of `src/finance/models.py`),
restricted to the fields the verified behaviors read. -/
structure Tx where
  tipo : Tipo
  status : Status
  valor : Int
  dataVencimento : Date
  dataPagamento : Option Date
  isProjection : Bool
  categoryId : Nat
  categoryNome : String
  categoryTipo : Tipo
  categoryDreGroup : Option DreGroup
deriving DecidableEq, Repr

/-- A financial account (`Account` of `src/finance/models.py`), restricted to
the fields the cashflow claim reads. -/
structure Account where
  saldoInicial : Int
  ativa : Bool
deriving DecidableEq, Repr

/-! ## Transaction lifecycle (state machine) -/

/-- `Transaction.save` from `src/finance/models.py` (lines 378-400): the
status derivation run on every save.  A `cancelado` record only has its
payment date cleared; otherwise the status is derived from the projection
flag, the payment date and the due date against today. -/
def Transaction.save (tx : Tx) (today : Date) : Tx :=
  if tx.status = .cancelado then
    { tx with dataPagamento := none }
  else if tx.isProjection = true ∧ tx.dataPagamento = none then
    { tx with status := .previsto, dataPagamento := none }
  else
    match tx.dataPagamento with
    | some _ => { tx with status := .realizado }
    | none =>
      if tx.dataVencimento.ltB today then
        { tx with status := .atrasado, dataPagamento := none }
      else
        { tx with status := .previsto, dataPagamento := none }

/-- `Transaction.marcar_como_realizado` from `src/finance/models.py`
(lines 402-405): sets the status to `realizado` and the payment date to the
given date (or today when none is given), then saves. -/
def marcarComoRealizado (tx : Tx) (dataPagamento : Option Date) (today : Date) : Tx :=
  Transaction.save
    { tx with status := .realizado, dataPagamento := some (dataPagamento.getD today) } today

/-- `Transaction.marcar_como_previsto` from `src/finance/models.py`
(lines 407-410): sets the status to `previsto`, clears the payment date,
then saves. -/
def marcarComoPrevisto (tx : Tx) (today : Date) : Tx :=
  Transaction.save { tx with status := .previsto, dataPagamento := none } today

/-- `Transaction.cancelar` from `src/finance/models.py` (lines 412-415). -/
def cancelar (tx : Tx) (today : Date) : Tx :=
  Transaction.save { tx with status := .cancelado, dataPagamento := none } today

/-- Validation failures raised by `Transaction.clean`. -/
inductive CleanError
  | dataPagamentoAnterior
  | dataPagamentoFutura
  | categoriaTipoDiferente
deriving DecidableEq, Repr

/-- `Transaction.clean` from `src/finance/models.py` (lines 364-376): when a
payment date is present it must not precede the due date and must not exceed
today; the category kind must match the transaction kind.  Returns the first
failure, or `none` when the record validates.  The due date is a non-null
field, so the `self.data_vencimento` truthiness test of the source always
passes when a payment date is present. -/
def Transaction.clean (tx : Tx) (today : Date) : Option CleanError :=
  match tx.dataPagamento with
  | some dp =>
    if dp.ltB tx.dataVencimento then some .dataPagamentoAnterior
    else if today.ltB dp then some .dataPagamentoFutura
    else if tx.tipo ≠ tx.categoryTipo then some .categoriaTipoDiferente
    else none
  | none =>
    if tx.tipo ≠ tx.categoryTipo then some .categoriaTipoDiferente
    else none

/-! ## View-level operations -/

/-- Outcome of `TransactionMarkAsCompletedView.post`. -/
inductive MarkAsCompletedResult
  | rejectedProjection
  | rejectedCanceled
  | warnAlreadyRealized
  | rejectedIncompleteAccount
  | completed (tx : Tx)
deriving DecidableEq, Repr

/-- `TransactionMarkAsCompletedView.post` from `src/finance/views.py`
(lines 493-523): rejects projections, canceled and already realized entries
and incomplete bank data; otherwise calls `marcar_como_realizado` with the
payment date cleaned by `MarkAsCompletedForm` (which substitutes today for a
blank date, `src/finance/forms.py` lines 591-593). -/
def markAsCompletedPost (tx : Tx) (accountComplete : Bool) (dataPagamento : Option Date)
    (today : Date) : MarkAsCompletedResult :=
  if tx.isProjection = true then .rejectedProjection
  else if tx.status = .cancelado then .rejectedCanceled
  else if tx.status = .realizado then .warnAlreadyRealized
  else if accountComplete = false then .rejectedIncompleteAccount
  else .completed (marcarComoRealizado tx (some (dataPagamento.getD today)) today)

/-- The updated record written by `InstallmentInvoiceView.post`
(`src/finance/views.py` lines 974-1000), restricted to the carried fields:
`is_projection` is set to `False` exactly when a fiscal note is generated
(line 987), and the record is saved. -/
def invoiceUpdatedTx (tx : Tx) (generateNf : Bool) (today : Date) : Tx :=
  Transaction.save
    (if generateNf then { tx with isProjection := false } else tx) today

/-- Outcome of `InstallmentInvoiceView.post`. -/
inductive InvoiceResult
  | rejectedRealized
  | rejectedCanceled
  | updated (tx : Tx)
deriving DecidableEq, Repr

/-- `InstallmentInvoiceView.post` from `src/finance/views.py`
(lines 958-1003): realized and canceled installments are rejected, otherwise
the record is updated and saved. -/
def installmentInvoicePost (tx : Tx) (generateNf : Bool) (today : Date) : InvoiceResult :=
  if tx.status = .realizado then .rejectedRealized
  else if tx.status = .cancelado then .rejectedCanceled
  else .updated (invoiceUpdatedTx tx generateNf today)

/-- One receivable installment created by `WorkOrderPaymentView.post`
(`src/finance/views.py` lines 1159-1177): kind `receita`, no payment date,
`is_installment = True`, `is_projection = True`; the model `status` default
is `previsto` and `Transaction.objects.create` runs `save`, so the stored
record is the saved form of this row. -/
def workOrderInstallmentTx (valor : Int) (dueDate : Date) (categoryId : Nat)
    (categoryNome : String) (categoryDreGroup : Option DreGroup) (today : Date) : Tx :=
  Transaction.save
    { tipo := .receita
      status := .previsto
      valor := valor
      dataVencimento := dueDate
      dataPagamento := none
      isProjection := true
      categoryId := categoryId
      categoryNome := categoryNome
      categoryTipo := .receita
      categoryDreGroup := categoryDreGroup } today

/-! ## Category classifier -/

/-- ASCII lower-casing of one character.  Python `str.lower()` additionally
lowers accented letters, but every keyword below is plain lowercase ASCII, so
an accented letter can never be part of a keyword occurrence either way and
keyword containment is unaffected. -/
def asciiLowerChar (c : Char) : Char :=
  if 'A' ≤ c ∧ c ≤ 'Z' then Char.ofNat (c.toNat + 32) else c

/-- Lower-cased form of a category name (`name.lower()` in the source). -/
def asciiLower (s : String) : String :=
  String.mk (s.data.map asciiLowerChar)

/-- `needle` occurs as a contiguous run inside `haystack` (the Python
substring test `needle in haystack`). -/
def hasSublist (needle : List Char) : List Char → Bool
  | [] => needle.isEmpty
  | c :: t => needle.isPrefixOf (c :: t) || hasSublist needle t

/-- Python substring containment on strings. -/
def strContains (haystack needle : String) : Bool :=
  hasSublist needle.data haystack.data

/-- `match_category` from `build_dre_context` in `src/finance/services.py`
(lines 62-66): an empty name matches nothing; otherwise any keyword contained
in the lower-cased name matches. -/
def matchCategory (nome : String) (keywords : List String) : Bool :=
  if nome = "" then false
  else keywords.any (fun keyword => strContains (asciiLower nome) keyword)

/-- Keyword list of the financial-revenue rule (services.py line 94). -/
def kwReceitaFinanceira : List String := ["juros", "rendimento", "financeira", "tarifa"]

/-- Keyword list of the sales-tax rule (services.py line 99). -/
def kwImpostosVenda : List String := ["imposto", "tributo", "iss", "icms", "simples"]

/-- Keyword list of the COGS rule (services.py line 101). -/
def kwCmv : List String := ["custo", "cmv", "cpv", "mercadoria", "producao"]

/-- Keyword list of the selling-expense rule (services.py line 103). -/
def kwDespesasVenda : List String := ["venda", "comissao", "marketing", "publicidade", "frete"]

/-- Keyword list of the financial-expense rule (services.py line 105). -/
def kwDespesasFinanceiras : List String := ["juros", "tarifa", "taxa", "banco", "financeira"]

/-- The category-to-group classification performed by the aggregation loop of
`build_dre_context` (`src/finance/services.py` lines 93-108): an ordered
if/elif chain in which each rule fires when the explicit `dre_group` equals
that rule OR the keyword heuristic matches the category name; income falls
back to operating revenue and expense to general/administrative expense. -/
def classifyDre (tipo : Tipo) (dreGroup : Option DreGroup) (nome : String) : DreGroup :=
  match tipo with
  | .receita =>
    if dreGroup = some .receitaFinanceira ∨ matchCategory nome kwReceitaFinanceira = true then
      .receitaFinanceira
    else
      .receitaOperacional
  | .despesa =>
    if dreGroup = some .impostosVenda ∨ matchCategory nome kwImpostosVenda = true then
      .impostosVenda
    else if dreGroup = some .cmv ∨ matchCategory nome kwCmv = true then
      .cmv
    else if dreGroup = some .despesasVenda ∨ matchCategory nome kwDespesasVenda = true then
      .despesasVenda
    else if dreGroup = some .despesasFinanceiras ∨ matchCategory nome kwDespesasFinanceiras = true then
      .despesasFinanceiras
    else
      .despesasGeraisAdm

/-! ## Phase filter and monthly aggregation -/

/-- `apply_phase_filter` from `src/finance/services.py` (lines 21-31):
excludes canceled entries, restricts the due date to the range, then keeps
`previsto`/`atrasado` for the `futuro` phase and `realizado` otherwise. -/
def applyPhaseFilter (txs : List Tx) (phase : String) (startDate endDate : Date) : List Tx :=
  let ranged := txs.filter (fun tx =>
    tx.status != .cancelado &&
    startDate.leB tx.dataVencimento && tx.dataVencimento.leB endDate)
  if phase = "futuro" then
    ranged.filter (fun tx => tx.status == .previsto || tx.status == .atrasado)
  else
    ranged.filter (fun tx => tx.status == .realizado)

/-- The `date_field` returned by `apply_phase_filter`
(`src/finance/services.py` line 30): the source returns `data_vencimento`
for every phase. -/
def phaseDateField (_phase : String) : String := "data_vencimento"

/-- The date whose calendar month buckets a transaction in both report
builders: `TruncMonth(date_field)` with `date_field = data_vencimento`. -/
def bucketDate (tx : Tx) : Date := tx.dataVencimento

/-- The (year, month) bucket of a transaction in both report builders. -/
def txYearMonth (tx : Tx) : Int × Nat := ((bucketDate tx).year, (bucketDate tx).month)

/-- Monthly total of one DRE group: the sum of the amounts of the
phase-filtered transactions whose due-date month is `(y, m)` and whose
category classifies to `g` — the accumulation performed by the aggregation
loop of `build_dre_context` (`src/finance/services.py` lines 78-108), with
the grouped sums flattened into one sum over matching transactions. -/
def dreGroupMonthly (txs : List Tx) (phase : String) (startDate endDate : Date)
    (g : DreGroup) (y : Int) (m : Nat) : Int :=
  (((applyPhaseFilter txs phase startDate endDate).filter (fun tx =>
      txYearMonth tx == (y, m) &&
      classifyDre tx.tipo tx.categoryDreGroup tx.categoryNome == g)).map
    (fun tx => tx.valor)).sum

/-! ## Cashflow builder -/

/-- Row key of the cashflow sheet: `f"{item['tipo']}-{item['category_id']}"`
(`src/finance/services.py` line 231). -/
def cfRowKey (tx : Tx) : Tipo × Nat := (tx.tipo, tx.categoryId)

/-- The distinct row keys present in the filtered data (the keys of the
`rows` dict of `build_cashflow_context`). -/
def cfRowKeys (filtered : List Tx) : List (Tipo × Nat) :=
  (filtered.map cfRowKey).dedup

/-- Value of one cashflow row at one month: the aggregated `Sum('valor')` of
the filtered transactions with that (kind, category) key and that due-date
month (`src/finance/services.py` lines 221-244). -/
def cfRowMonthValue (filtered : List Tx) (key : Tipo × Nat) (y : Int) (m : Nat) : Int :=
  ((filtered.filter (fun tx => cfRowKey tx == key && txYearMonth tx == (y, m))).map
    (fun tx => tx.valor)).sum

/-- `totals_receita_list[idx]`: the sum over income rows of their value at
month `(y, m)` (`src/finance/services.py` lines 258-263). -/
def totalsReceitaAt (filtered : List Tx) (y : Int) (m : Nat) : Int :=
  (((cfRowKeys filtered).filter (fun key => key.1 == Tipo.receita)).map
    (fun key => cfRowMonthValue filtered key y m)).sum

/-- `totals_despesa_list[idx]`: the sum over expense rows of their value at
month `(y, m)` (`src/finance/services.py` lines 258-266). -/
def totalsDespesaAt (filtered : List Tx) (y : Int) (m : Nat) : Int :=
  (((cfRowKeys filtered).filter (fun key => key.1 == Tipo.despesa)).map
    (fun key => cfRowMonthValue filtered key y m)).sum

/-- `totals_saldo_list[idx] = totals_receita_list[idx] - totals_despesa_list[idx]`
(`src/finance/services.py` lines 268-271). -/
def totalsSaldoAt (filtered : List Tx) (y : Int) (m : Nat) : Int :=
  totalsReceitaAt filtered y m - totalsDespesaAt filtered y m

/-- `saldo_inicial_total` of `build_cashflow_context`
(`src/finance/services.py` line 273): the constant `Decimal('0.00')`. -/
def saldoInicialTotal : Int := 0

/-- Number of calendar months from the month of `s` to the month of `e`
inclusive — the number of iterations of the `_month_list` loop
(`src/finance/services.py` lines 188-197) when `s ≤ e`. -/
def monthSpan (s e : Date) : Nat :=
  ((e.year - s.year) * 12 + (e.month : Int) - (s.month : Int) + 1).toNat

/-- The (year, month) reached after advancing the month of `s` by `i`
months — the cursor of the `_month_list` loop after `i` steps, each step
computing `year + month // 12` and `month % 12 + 1`. -/
def monthAt (s : Date) (i : Nat) : Int × Nat :=
  (s.year + ((s.month - 1 + i) / 12 : Nat), (s.month - 1 + i) % 12 + 1)

/-- `_month_list` from `src/finance/services.py` (lines 188-197), as the
explicit enumeration of the months visited by the loop. -/
def monthList (s e : Date) : List (Int × Nat) :=
  (List.range (monthSpan s e)).map (monthAt s)

/-- `totals_saldo_final_list` of `build_cashflow_context`
(`src/finance/services.py` lines 273-277): for each month of the range,
`saldo_inicial_total + totals_saldo_list[idx]`. -/
def totalsSaldoFinalList (txs : List Tx) (phase : String) (s e : Date) : List Int :=
  (monthList s e).map (fun ym =>
    saldoInicialTotal + totalsSaldoAt (applyPhaseFilter txs phase s e) ym.1 ym.2)

/-! ## Claim-side definitions (from the words of the spec, for comparison) -/

/-- Claim-side bucketing date for C2, following the words of the spec: the
realized phase buckets by payment date, the projected phase by due date. -/
def claimBucketDate (phase : String) (tx : Tx) : Date :=
  if phase = "futuro" then tx.dataVencimento
  else tx.dataPagamento.getD tx.dataVencimento

/-- Claim-side monthly DRE group total for C2: same selection as the source,
but bucketed by `claimBucketDate` (payment date in the realized phase). -/
def dreGroupMonthlyClaim (txs : List Tx) (phase : String) (startDate endDate : Date)
    (g : DreGroup) (y : Int) (m : Nat) : Int :=
  (((applyPhaseFilter txs phase startDate endDate).filter (fun tx =>
      ((claimBucketDate phase tx).year, (claimBucketDate phase tx).month) == (y, m) &&
      classifyDre tx.tipo tx.categoryDreGroup tx.categoryNome == g)).map
    (fun tx => tx.valor)).sum

/-- Sum of the `opening_balance` of the active accounts (the starting sum the
spec prescribes for the cashflow running balance). -/
def activeOpeningSum (accounts : List Account) : Int :=
  ((accounts.filter (fun a => a.ativa)).map (fun a => a.saldoInicial)).sum

/-- Claim-side running balance series for C3, following the words of the
spec: starts from the sum of the active accounts opening balances and at
month k carries the cumulative sum of the monthly nets of months 1..k. -/
def runningBalanceClaim (accounts : List Account) (txs : List Tx) (phase : String)
    (s e : Date) : List Int :=
  (List.range (monthList s e).length).map (fun k =>
    activeOpeningSum accounts +
      (((monthList s e).take (k + 1)).map (fun ym =>
        totalsSaldoAt (applyPhaseFilter txs phase s e) ym.1 ym.2)).sum)

/-- Amended description of the source aggregation for C2, written directly:
one pass over the transactions in which the phase picks the status set
(`realizado` for the realized phase, `previsto`/`atrasado` for the projected
one), the range filter and the month bucket both use the due date, and the
category classifies through `classifyDre`. -/
def dreGroupMonthlyAmended (txs : List Tx) (phase : String) (startDate endDate : Date)
    (g : DreGroup) (y : Int) (m : Nat) : Int :=
  ((txs.filter (fun tx =>
      (if phase = "futuro" then tx.status == .previsto || tx.status == .atrasado
       else tx.status == .realizado) &&
      startDate.leB tx.dataVencimento && tx.dataVencimento.leB endDate &&
      tx.dataVencimento.year == y && tx.dataVencimento.month == m &&
      classifyDre tx.tipo tx.categoryDreGroup tx.categoryNome == g)).map
    (fun tx => tx.valor)).sum

/-! ## Concrete fixtures used by witnesses and counterexamples -/

/-- Concrete pending receivable used by the concrete instantiations below:
due January 20, 2026, no payment date, not a projection. -/
def sampleTx : Tx :=
  { tipo := .receita
    status := .previsto
    valor := 5000
    dataVencimento := ⟨2026, 1, 20⟩
    dataPagamento := none
    isProjection := false
    categoryId := 1
    categoryNome := "Servicos"
    categoryTipo := .receita
    categoryDreGroup := none }

/-- Realized receivable with due date in January 2026 and payment date in
February 2026, used by the concrete C2 instantiation. -/
def sampleRealizedTx : Tx :=
  { tipo := .receita
    status := .realizado
    valor := 100000
    dataVencimento := ⟨2026, 1, 5⟩
    dataPagamento := some ⟨2026, 2, 10⟩
    isProjection := false
    categoryId := 2
    categoryNome := "Servicos"
    categoryTipo := .receita
    categoryDreGroup := none }

/-- Pending January 2026 receivable of 10.00 used by the C3 instantiation. -/
def cashflowTxJan : Tx :=
  { sampleTx with categoryId := 3, dataVencimento := ⟨2026, 1, 5⟩, valor := 1000 }

/-- Pending February 2026 receivable of 5.00 used by the C3 instantiation. -/
def cashflowTxFev : Tx :=
  { sampleTx with categoryId := 3, dataVencimento := ⟨2026, 2, 5⟩, valor := 500 }

/-- One active account with opening balance 100.00, used by the C3
instantiation. -/
def sampleAccounts : List Account := [{ saldoInicial := 10000, ativa := true }]

/-! ## Helper lemmas -/

lemma getD_range_map {α : Type} (f : Nat → α) (d : α) {i n : Nat} (h : i < n) :
    ((List.range n).map f).getD i d = f i := by
  rw [List.getD_eq_getElem?_getD, List.getElem?_map, List.getElem?_range h]
  rfl

lemma sum_range_map_if_last (m : Nat) (base r : Int) :
    ((List.range (m + 1)).map (fun idx => if idx = m then base + r else base)).sum
      = ((m : Int) + 1) * base + r := by
  rw [List.range_succ, List.map_append, List.sum_append]
  have h1 : (List.range m).map (fun idx => if idx = m then base + r else base)
      = (List.range m).map (fun _ => base) := by
    apply List.map_congr_left
    intro x hx
    rw [List.mem_range] at hx
    simp [Nat.ne_of_lt hx]
  rw [h1, List.map_const', List.sum_replicate, List.length_range]
  simp [nsmul_eq_mul]
  ring

lemma roundHalfEvenDiv_eq (t n : Nat) :
    roundHalfEvenDiv t n
      = if 2 * (t % n) < n then t / n
        else if n < 2 * (t % n) then t / n + 1
        else if (t / n) % 2 = 0 then t / n else t / n + 1 := rfl

lemma roundHalfEvenDiv_exact {t n : Nat} (hn : 1 ≤ n) (h : t % n = 0) :
    roundHalfEvenDiv t n = t / n := by
  rw [roundHalfEvenDiv_eq, h, if_pos (by omega)]

lemma installment_getD (t n : Nat) {i : Nat} (hi : i < n) :
    (workOrderInstallmentAmounts t n).getD i 0
      = if i = n - 1
        then (roundHalfEvenDiv t n : Int) + ((t : Int) - (roundHalfEvenDiv t n : Int) * (n : Int))
        else (roundHalfEvenDiv t n : Int) := by
  simp only [workOrderInstallmentAmounts]
  rw [getD_range_map _ _ hi]

lemma installment_sum (t n : Nat) (h1 : 1 ≤ n) :
    (workOrderInstallmentAmounts t n).sum = t := by
  obtain ⟨m, rfl⟩ : ∃ m, n = m + 1 := ⟨n - 1, by omega⟩
  simp only [workOrderInstallmentAmounts, Nat.add_sub_cancel]
  rw [sum_range_map_if_last]
  push_cast
  ring

lemma installment_rem_zero_iff (t n : Nat) (h1 : 1 ≤ n) :
    ((t : Int) - (roundHalfEvenDiv t n : Int) * (n : Int) = 0) ↔ t % n = 0 := by
  constructor
  · intro hz
    have hz' : (t : Int) = ((roundHalfEvenDiv t n * n : Nat) : Int) := by
      push_cast
      omega
    have ht' : t = roundHalfEvenDiv t n * n := by exact_mod_cast hz'
    rw [ht']
    exact Nat.mul_mod_left _ _
  · intro h
    rw [roundHalfEvenDiv_exact h1 h, ← Nat.cast_mul,
      Nat.div_mul_cancel (Nat.dvd_of_mod_eq_zero h)]
    omega

lemma daysInMonth_bounds (y : Int) (m : Nat) :
    28 ≤ daysInMonth y m ∧ daysInMonth y m ≤ 31 := by
  unfold daysInMonth
  split
  · split <;> omega
  · split <;> omega

lemma lastDayOfMonth_day (y : Int) (m : Nat) (h12 : m ≤ 12) :
    (lastDayOfMonth ⟨y, m, 1⟩).day = daysInMonth y m := by
  unfold lastDayOfMonth
  by_cases h : m = 12
  · subst h
    simp [daysInMonth]
  · simp [h]

/-! ## C1: installment split conservation -/

/-- C1: for every total T > 0 (in cents) and installment count N in [1,24],
both installment generator paths produce the same amounts, the amounts sum
to exactly T, and the rounding remainder is absorbed entirely by the last
installment: when N divides T every installment equals the base, otherwise
every installment but the last equals the base and the last one differs
from it. -/
theorem installment_split_conservation (t n : Nat) (ht : 0 < t) (h1 : 1 ≤ n) (h24 : n ≤ 24) :
    workOrderInstallmentAmounts t n = expenseInstallmentAmounts t n ∧
    (workOrderInstallmentAmounts t n).length = n ∧
    (workOrderInstallmentAmounts t n).sum = t ∧
    (t % n = 0 → ∀ i, i < n →
      (workOrderInstallmentAmounts t n).getD i 0 = (roundHalfEvenDiv t n : Int)) ∧
    (t % n ≠ 0 →
      (∀ i, i < n - 1 →
        (workOrderInstallmentAmounts t n).getD i 0 = (roundHalfEvenDiv t n : Int)) ∧
      (workOrderInstallmentAmounts t n).getD (n - 1) 0 ≠ (roundHalfEvenDiv t n : Int)) := by
  refine ⟨rfl, by simp [workOrderInstallmentAmounts], installment_sum t n h1, ?_, ?_⟩
  · intro hdvd i hi
    have hrem : ((t : Int) - (roundHalfEvenDiv t n : Int) * (n : Int)) = 0 :=
      (installment_rem_zero_iff t n h1).mpr hdvd
    rw [installment_getD t n hi]
    by_cases hil : i = n - 1 <;> simp [hil, hrem]
  · intro hndvd
    have hrem : ((t : Int) - (roundHalfEvenDiv t n : Int) * (n : Int)) ≠ 0 := fun hz =>
      hndvd ((installment_rem_zero_iff t n h1).mp hz)
    constructor
    · intro i hi
      rw [installment_getD t n (by omega)]
      simp [show i ≠ n - 1 by omega]
    · rw [installment_getD t n (by omega), if_pos rfl]
      intro heq
      exact hrem (by linarith)

/-- Witness for C1 at T = 1000.00 (100000 cents), N = 3. -/
theorem installment_split_conservation_witness :
    (workOrderInstallmentAmounts 100000 3).sum = 100000 :=
  (installment_split_conservation 100000 3 (by decide) (by decide) (by decide)).2.2.1

/-! ## C7: the per-installment base is rounded half-even, not floored -/

/-- C7 counterexample: at T = 2.00 (200 cents) and N = 3 the generator
produces [0.67, 0.67, 0.66] while the floor rule of the claim demands
[0.66, 0.66, 0.68]: the base is 200/3 rounded half-even (67), not floored
(66). -/
theorem installment_floor_base_counterexample :
    workOrderInstallmentAmounts 200 3 = [67, 67, 66] ∧
    expenseInstallmentAmounts 200 3 = [67, 67, 66] ∧
    floorInstallmentAmountsSpec 200 3 = [66, 66, 68] ∧
    workOrderInstallmentAmounts 200 3 ≠ floorInstallmentAmountsSpec 200 3 := by
  decide

/-- C7 amended: the base amount is T / N rounded half-even to 2 decimals
(not floored); every installment before the last receives the base and the
last receives base + (T − base·N). -/
theorem installment_base_half_even (t n : Nat) (h1 : 1 ≤ n) (h24 : n ≤ 24) (ht : 0 < t) :
    workOrderInstallmentAmounts t n = expenseInstallmentAmounts t n ∧
    (workOrderInstallmentAmounts t n).length = n ∧
    (∀ i, i < n - 1 →
      (workOrderInstallmentAmounts t n).getD i 0 = (roundHalfEvenDiv t n : Int)) ∧
    (workOrderInstallmentAmounts t n).getD (n - 1) 0
      = (roundHalfEvenDiv t n : Int) + ((t : Int) - (roundHalfEvenDiv t n : Int) * n) := by
  refine ⟨rfl, by simp [workOrderInstallmentAmounts], ?_, ?_⟩
  · intro i hi
    rw [installment_getD t n (by omega)]
    simp [show i ≠ n - 1 by omega]
  · rw [installment_getD t n (by omega)]
    simp

/-- Witness for C7 amended at T = 200 cents, N = 3. -/
theorem installment_base_half_even_witness :
    (workOrderInstallmentAmounts 200 3).getD 2 0
      = (roundHalfEvenDiv 200 3 : Int) + ((200 : Int) - (roundHalfEvenDiv 200 3 : Int) * 3) :=
  (installment_base_half_even 200 3 (by decide) (by decide) (by decide)).2.2.2

/-! ## C8: month advancing always yields a valid date -/

lemma addMonths_zero (d : Date) (hd : d.Valid) : addMonths d 0 = d := by
  obtain ⟨hm1, hm12, hd1, hdm⟩ := hd
  have hm' : (d.month - 1 + 0) % 12 + 1 = d.month := by omega
  have hy' : (d.month - 1 + 0) / 12 = 0 := by omega
  have hrfl : addMonths d 0
      = ⟨d.year + (((d.month - 1 + 0) / 12 : Nat) : Int), (d.month - 1 + 0) % 12 + 1,
          min d.day (lastDayOfMonth ⟨d.year + (((d.month - 1 + 0) / 12 : Nat) : Int),
            (d.month - 1 + 0) % 12 + 1, 1⟩).day⟩ := rfl
  rw [hrfl, hy', hm']
  simp only [Nat.cast_zero, add_zero]
  rw [lastDayOfMonth_day _ _ hm12, min_eq_left hdm]

/-- C8: for every valid first due date and every month offset, `_add_months`
produces a valid calendar date whose day is the original day clamped to the
last valid day of the target month and whose month index advances by exactly
the offset; advancing by zero months is the identity, so the work-order due
date rule (which special-cases index 0) and the expense due date rule agree
with `_add_months` everywhere, and no invalid date construction can occur. -/
theorem add_months_clamping (d : Date) (k : Nat) (hd : d.Valid) :
    (addMonths d k).Valid ∧
    (addMonths d k).day = min d.day (daysInMonth (addMonths d k).year (addMonths d k).month) ∧
    (addMonths d k).year * 12 + ((addMonths d k).month : Int)
      = d.year * 12 + (d.month : Int) + k ∧
    addMonths d 0 = d ∧
    workOrderDueDate d k = addMonths d k ∧
    expenseDueDate d k = addMonths d k := by
  obtain ⟨hm1, hm12, hd1, hdm⟩ := hd
  have hmonth : (addMonths d k).month = (d.month - 1 + k) % 12 + 1 := rfl
  have hyear : (addMonths d k).year = d.year + ((d.month - 1 + k) / 12 : Nat) := rfl
  have hday : (addMonths d k).day
      = min d.day (lastDayOfMonth ⟨(addMonths d k).year, (addMonths d k).month, 1⟩).day := rfl
  have hmb1 : 1 ≤ (addMonths d k).month := by rw [hmonth]; omega
  have hmb2 : (addMonths d k).month ≤ 12 := by rw [hmonth]; omega
  have hlast : (lastDayOfMonth ⟨(addMonths d k).year, (addMonths d k).month, 1⟩).day
      = daysInMonth (addMonths d k).year (addMonths d k).month :=
    lastDayOfMonth_day _ _ hmb2
  have hclamp : (addMonths d k).day
      = min d.day (daysInMonth (addMonths d k).year (addMonths d k).month) := by
    rw [hday, hlast]
  refine ⟨⟨hmb1, hmb2, ?_, ?_⟩, hclamp, ?_, addMonths_zero d ⟨hm1, hm12, hd1, hdm⟩, ?_, rfl⟩
  · rw [hclamp]
    exact le_min hd1 (le_trans (by omega) (daysInMonth_bounds _ _).1)
  · rw [hclamp]
    exact min_le_right _ _
  · rw [hyear, hmonth]
    omega
  · unfold workOrderDueDate
    by_cases hk : k = 0
    · rw [if_pos hk, hk, addMonths_zero d ⟨hm1, hm12, hd1, hdm⟩]
    · rw [if_neg hk]

/-- Witness for C8: January 31 of the leap year 2024 advanced by one month is
the valid date February 29, 2024. -/
theorem add_months_clamping_witness :
    (addMonths ⟨2024, 1, 31⟩ 1).Valid ∧ addMonths ⟨2024, 1, 31⟩ 1 = ⟨2024, 2, 29⟩ :=
  ⟨(add_months_clamping ⟨2024, 1, 31⟩ 1 (by decide)).1, by decide⟩

/-! ## C6: status derivation and its idempotence -/

lemma Date.ltB_iff {a b : Date} : a.ltB b = true ↔ a.key < b.key := by
  simp [Date.ltB]

lemma Date.leB_iff {a b : Date} : a.leB b = true ↔ a.key ≤ b.key := by
  simp [Date.leB]

lemma Date.ltB_trans_leB {a b c : Date} (h1 : a.ltB b = true) (h2 : b.leB c = true) :
    a.ltB c = true := by
  rw [Date.ltB_iff] at h1 ⊢
  rw [Date.leB_iff] at h2
  omega

/-- C6: for every non-canceled transaction, saving derives the status exactly
as the spec states (projection without payment date forces pending; else a
payment date gives realized; else a past due date gives overdue with the
payment date cleared; else pending with the payment date cleared), re-saving
at the same day is the identity, and with a later day the status changes
exactly for the pending-to-overdue transition when today crosses the due
date. -/
theorem status_derivation (tx : Tx) (t t' : Date) (hnc : tx.status ≠ .cancelado)
    (hle : t.leB t' = true) :
    ((tx.isProjection = true ∧ tx.dataPagamento = none →
        Transaction.save tx t = { tx with status := .previsto, dataPagamento := none }) ∧
      (∀ dp, tx.dataPagamento = some dp →
        Transaction.save tx t = { tx with status := .realizado }) ∧
      (tx.isProjection = false → tx.dataPagamento = none → tx.dataVencimento.ltB t = true →
        Transaction.save tx t = { tx with status := .atrasado, dataPagamento := none }) ∧
      (tx.isProjection = false → tx.dataPagamento = none → tx.dataVencimento.ltB t = false →
        Transaction.save tx t = { tx with status := .previsto, dataPagamento := none })) ∧
    Transaction.save (Transaction.save tx t) t = Transaction.save tx t ∧
    ((Transaction.save (Transaction.save tx t) t').status ≠ (Transaction.save tx t).status ↔
      ((Transaction.save tx t).status = .previsto ∧ tx.isProjection = false ∧
        tx.dataVencimento.ltB t = false ∧ tx.dataVencimento.ltB t' = true)) := by
  cases hdp : tx.dataPagamento with
  | some dp =>
    cases hproj : tx.isProjection <;>
      simp [Transaction.save, hnc, hdp, hproj]
  | none =>
    cases hproj : tx.isProjection
    · by_cases hv : tx.dataVencimento.ltB t = true
      · have hv' : tx.dataVencimento.ltB t' = true := Date.ltB_trans_leB hv hle
        simp [Transaction.save, hnc, hdp, hproj, hv, hv']
      · rw [Bool.not_eq_true] at hv
        by_cases hv' : tx.dataVencimento.ltB t' = true
        · simp [Transaction.save, hnc, hdp, hproj, hv, hv']
        · rw [Bool.not_eq_true] at hv'
          simp [Transaction.save, hnc, hdp, hproj, hv, hv']
    · simp [Transaction.save, hnc, hdp, hproj]

/-- Witness for C6 at a concrete pending transaction on January 15, 2026. -/
theorem status_derivation_witness :
    Transaction.save (Transaction.save sampleTx ⟨2026, 1, 15⟩) ⟨2026, 1, 15⟩
      = Transaction.save sampleTx ⟨2026, 1, 15⟩ :=
  (status_derivation sampleTx ⟨2026, 1, 15⟩ ⟨2026, 1, 25⟩ (by decide) (by decide)).2.1

/-! ## C5: the canceled state and the model methods -/

/-- C5 counterexample: calling `marcar_como_realizado` on a canceled
transaction overwrites the status before saving, so the transaction leaves
the canceled state and becomes realized — the claimed terminality fails for
the bare model method. -/
theorem canceled_escape_counterexample :
    (marcarComoRealizado { sampleTx with status := .cancelado } none ⟨2026, 1, 25⟩).status
        = .realizado ∧
    (marcarComoRealizado { sampleTx with status := .cancelado } none ⟨2026, 1, 25⟩).status
        ≠ .cancelado := by
  decide

/-- C5 amended: canceled is sticky under plain saves (the status stays
canceled and the payment date is cleared on every save) and the
mark-realized endpoint rejects canceled transactions; the bare model methods
`marcar_como_realizado`/`marcar_como_previsto`, however, do move a canceled
transaction out of the canceled state. -/
theorem canceled_terminal_amended (tx : Tx) (today : Date) (accountComplete : Bool)
    (dp : Option Date) (hc : tx.status = .cancelado) :
    (Transaction.save tx today).status = .cancelado ∧
    (Transaction.save tx today).dataPagamento = none ∧
    (tx.isProjection = false →
      markAsCompletedPost tx accountComplete dp today = .rejectedCanceled) := by
  refine ⟨?_, ?_, fun hproj => ?_⟩
  · simp [Transaction.save, hc]
  · simp [Transaction.save, hc]
  · simp [markAsCompletedPost, hproj, hc]

/-- Witness for C5 amended at a concrete canceled transaction. -/
theorem canceled_terminal_amended_witness :
    (Transaction.save { sampleTx with status := .cancelado } ⟨2026, 1, 25⟩).status
      = .cancelado :=
  (canceled_terminal_amended { sampleTx with status := .cancelado } ⟨2026, 1, 25⟩ true none
    (by decide)).1

/-! ## C9: the payment-date invariant and mark-realized -/

/-- C9 counterexample: marking the pending transaction realized on January
15 (before its January 20 due date) with the defaulted payment date stores
payment_date = January 15 < due_date = January 20, so the claimed invariant
payment_date ≥ due_date does not hold after mark-realized. -/
theorem payment_date_invariant_counterexample :
    (marcarComoRealizado sampleTx none ⟨2026, 1, 15⟩).dataPagamento = some ⟨2026, 1, 15⟩ ∧
    (marcarComoRealizado sampleTx none ⟨2026, 1, 15⟩).status = .realizado ∧
    (marcarComoRealizado sampleTx none ⟨2026, 1, 15⟩).dataVencimento = ⟨2026, 1, 20⟩ ∧
    Date.ltB ⟨2026, 1, 15⟩ ⟨2026, 1, 20⟩ = true := by
  decide

/-- C9 amended: the invariant due_date ≤ payment_date ≤ today is enforced
exactly by the validation routine `clean` (together with the category-kind
check), while `marcar_como_realizado` stores the given payment date
unconditionally and always yields a realized record, so the invariant is not
re-established by the operation itself. -/
theorem payment_date_invariant_amended (tx : Tx) (today : Date) (dp : Date) :
    (Transaction.clean tx today = none ↔
      (tx.tipo = tx.categoryTipo ∧
        ∀ d, tx.dataPagamento = some d →
          (d.ltB tx.dataVencimento = false ∧ today.ltB d = false))) ∧
    (marcarComoRealizado tx (some dp) today).status = .realizado ∧
    (marcarComoRealizado tx (some dp) today).dataPagamento = some dp ∧
    (marcarComoRealizado tx (some dp) today).dataVencimento = tx.dataVencimento := by
  refine ⟨?_, ?_, ?_, ?_⟩
  · cases hdp : tx.dataPagamento with
    | none => simp [Transaction.clean, hdp]
    | some d =>
      simp only [Transaction.clean, hdp]
      split_ifs with h1 h2 h3 <;> simp_all
  · simp [marcarComoRealizado, Transaction.save]
  · simp [marcarComoRealizado, Transaction.save]
  · simp [marcarComoRealizado, Transaction.save]

/-! ## C10: work-order installments are projections and stay pending -/

lemma save_isProjection (tx : Tx) (today : Date) :
    (Transaction.save tx today).isProjection = tx.isProjection := by
  cases hdp : tx.dataPagamento <;>
    simp [Transaction.save, hdp] <;> split_ifs <;> rfl

/-- C10: every installment created by the work-order billing path carries
is_projection = true and no payment date and is stored as pending; any
projection without a payment date saves to pending at every later day, even
past its due date; the mark-realized endpoint rejects projections; the save
and mark operations never change the flag, and the invoice step is the one
operation that clears it — exactly when a fiscal note is generated. -/
theorem projection_installments_stay_pending (valor : Int) (dueDate : Date) (catId : Nat)
    (catNome : String) (catDg : Option DreGroup) (today t' : Date) (tx : Tx)
    (accountComplete : Bool) (dp : Option Date) (generateNf : Bool) :
    ((workOrderInstallmentTx valor dueDate catId catNome catDg today).isProjection = true ∧
      (workOrderInstallmentTx valor dueDate catId catNome catDg today).status = .previsto ∧
      (workOrderInstallmentTx valor dueDate catId catNome catDg today).dataPagamento = none) ∧
    (tx.isProjection = true → tx.dataPagamento = none → tx.status ≠ .cancelado →
      (Transaction.save tx t').status = .previsto) ∧
    (tx.isProjection = true →
      markAsCompletedPost tx accountComplete dp t' = .rejectedProjection) ∧
    ((Transaction.save tx t').isProjection = tx.isProjection ∧
      (marcarComoRealizado tx dp t').isProjection = tx.isProjection ∧
      (marcarComoPrevisto tx t').isProjection = tx.isProjection ∧
      (cancelar tx t').isProjection = tx.isProjection) ∧
    (tx.status ≠ .realizado → tx.status ≠ .cancelado →
      installmentInvoicePost tx generateNf t' = .updated (invoiceUpdatedTx tx generateNf t') ∧
      (invoiceUpdatedTx tx generateNf t').isProjection
        = (if generateNf then false else tx.isProjection)) := by
  refine ⟨⟨?_, ?_, ?_⟩, fun h1 h2 h3 => ?_, fun h => ?_, ⟨?_, ?_, ?_, ?_⟩, fun h1 h2 => ⟨?_, ?_⟩⟩
  · simp [workOrderInstallmentTx, Transaction.save]
  · simp [workOrderInstallmentTx, Transaction.save]
  · simp [workOrderInstallmentTx, Transaction.save]
  · simp [Transaction.save, h1, h2, h3]
  · simp [markAsCompletedPost, h]
  · exact save_isProjection tx t'
  · exact save_isProjection _ t'
  · exact save_isProjection _ t'
  · exact save_isProjection _ t'
  · simp [installmentInvoicePost, h1, h2]
  · cases generateNf <;> simp [invoiceUpdatedTx, save_isProjection]

/-- Witness for C10: the projection stays pending on March 1, 2026, well
past its January 20 due date. -/
theorem projection_installments_stay_pending_witness :
    (Transaction.save { sampleTx with isProjection := true } ⟨2026, 3, 1⟩).status = .previsto :=
  (projection_installments_stay_pending 5000 ⟨2026, 1, 20⟩ 1 "Servicos" none ⟨2026, 1, 15⟩
      ⟨2026, 3, 1⟩ { sampleTx with isProjection := true } true none true).2.1
    (by decide) (by decide) (by decide)

/-! ## C4: explicit DRE group versus keyword heuristics -/

/-- C4 counterexample: an expense category that carries the explicit group
general/administrative but is named "Imposto predial" is classified as sales
tax — the keyword heuristic of an earlier rule fires even though an explicit
group is present, so the explicit group is not always honored. -/
theorem classifier_explicit_group_counterexample :
    classifyDre .despesa (some .despesasGeraisAdm) "Imposto predial" = .impostosVenda ∧
    classifyDre .despesa (some .despesasGeraisAdm) "Imposto predial" ≠ .despesasGeraisAdm := by
  decide

/-- C4 amended: every rule of the classifier fires when the explicit group
equals that rule OR its keyword list matches, in a fixed order, so keyword
heuristics are consulted even when an explicit group is present; when no
keyword list matches the name, every kind-consistent explicit group is
honored; and the classification is a total deterministic function into the
seven groups. -/
theorem classifier_explicit_group_amended (nome : String)
    (h1 : matchCategory nome kwImpostosVenda = false)
    (h2 : matchCategory nome kwCmv = false)
    (h3 : matchCategory nome kwDespesasVenda = false)
    (h4 : matchCategory nome kwDespesasFinanceiras = false)
    (h5 : matchCategory nome kwReceitaFinanceira = false) :
    classifyDre .receita (some .receitaFinanceira) nome = .receitaFinanceira ∧
    classifyDre .receita (some .receitaOperacional) nome = .receitaOperacional ∧
    classifyDre .despesa (some .impostosVenda) nome = .impostosVenda ∧
    classifyDre .despesa (some .cmv) nome = .cmv ∧
    classifyDre .despesa (some .despesasVenda) nome = .despesasVenda ∧
    classifyDre .despesa (some .despesasFinanceiras) nome = .despesasFinanceiras ∧
    classifyDre .despesa (some .despesasGeraisAdm) nome = .despesasGeraisAdm ∧
    (∀ tipo dreGroup nome2, ∃ g, classifyDre tipo dreGroup nome2 = g) := by
  refine ⟨?_, ?_, ?_, ?_, ?_, ?_, ?_, fun tipo dreGroup nome2 => ⟨_, rfl⟩⟩ <;>
    simp [classifyDre, h1, h2, h3, h4, h5]

/-- Witness for C4 amended at the keyword-free category name "Aluguel"
(the spec example: an expense named Aluguel with no explicit group would
fall back to general/administrative, and with an explicit group keeps it). -/
theorem classifier_explicit_group_amended_witness :
    classifyDre .despesa (some .despesasGeraisAdm) "Aluguel" = .despesasGeraisAdm :=
  (classifier_explicit_group_amended "Aluguel" (by decide) (by decide) (by decide) (by decide)
    (by decide)).2.2.2.2.2.2.1

/-! ## C2: phase selection and month bucketing of the DRE builder -/

lemma filter_filter_eq {α : Type} (p q : α → Bool) (l : List α) :
    (l.filter p).filter q = l.filter (fun a => p a && q a) := by
  induction l with
  | nil => rfl
  | cons x xs ih => by_cases hp : p x <;> by_cases hq : q x <;> simp [hp, hq, ih]

/-- C2 counterexample: in the realized phase a realized transaction due
January 5, 2026 but paid February 10, 2026 is bucketed into January (its due
month) by the source, while the claim demands February (its payment month). -/
theorem dre_phase_bucketing_counterexample :
    dreGroupMonthly [sampleRealizedTx] "consolidado" ⟨2026, 1, 1⟩ ⟨2026, 2, 28⟩
        .receitaOperacional 2026 1 = 100000 ∧
    dreGroupMonthly [sampleRealizedTx] "consolidado" ⟨2026, 1, 1⟩ ⟨2026, 2, 28⟩
        .receitaOperacional 2026 2 = 0 ∧
    dreGroupMonthlyClaim [sampleRealizedTx] "consolidado" ⟨2026, 1, 1⟩ ⟨2026, 2, 28⟩
        .receitaOperacional 2026 2 = 100000 ∧
    dreGroupMonthly [sampleRealizedTx] "consolidado" ⟨2026, 1, 1⟩ ⟨2026, 2, 28⟩
        .receitaOperacional 2026 2
      ≠ dreGroupMonthlyClaim [sampleRealizedTx] "consolidado" ⟨2026, 1, 1⟩ ⟨2026, 2, 28⟩
        .receitaOperacional 2026 2 := by
  decide

/-- C2 amended: the DRE builder in the realized phase selects exactly the
realized transactions and in the projected phase exactly the pending and
overdue ones, but in both phases the range filter and the calendar-month
bucket use the due date. -/
theorem dre_phase_selection_amended (txs : List Tx) (phase : String) (s e : Date)
    (g : DreGroup) (y : Int) (m : Nat) :
    dreGroupMonthly txs phase s e g y m = dreGroupMonthlyAmended txs phase s e g y m := by
  unfold dreGroupMonthly dreGroupMonthlyAmended applyPhaseFilter
  by_cases hp : phase = "futuro"
  · simp only [hp, if_pos]
    rw [filter_filter_eq, filter_filter_eq]
    refine congrArg _ (congrArg _ (List.filter_congr fun x hx => ?_))
    cases hst : x.status <;>
      rw [Bool.eq_iff_iff] <;>
      simp [txYearMonth, bucketDate, Prod.ext_iff] <;>
      tauto
  · simp only [hp, if_neg, if_false]
    rw [filter_filter_eq, filter_filter_eq]
    refine congrArg _ (congrArg _ (List.filter_congr fun x hx => ?_))
    cases hst : x.status <;>
      rw [Bool.eq_iff_iff] <;>
      simp [txYearMonth, bucketDate, Prod.ext_iff] <;>
      tauto

/-! ## C3: the cashflow running balance -/

lemma sum_filter_add_sum_filter_not {α : Type} (p : α → Bool) (f : α → Int) (l : List α) :
    ((l.filter p).map f).sum + ((l.filter (fun a => !(p a))).map f).sum = (l.map f).sum := by
  induction l with
  | nil => rfl
  | cons x xs ih => by_cases hp : p x <;> simp [hp, ← ih] <;> ring

lemma filter_fiber_sum {α K : Type} [BEq K] [LawfulBEq K] (key : α → K) (f : α → Int) :
    ∀ (keys : List K) (l : List α), keys.Nodup → (∀ x ∈ l, key x ∈ keys) →
      (keys.map (fun c => ((l.filter (fun x => key x == c)).map f).sum)).sum = (l.map f).sum := by
  intro keys
  induction keys with
  | nil =>
    intro l _ hcov
    cases l with
    | nil => rfl
    | cons x xs => exact absurd (hcov x (List.mem_cons_self _ _)) (by simp)
  | cons c cs ih =>
    intro l hnd hcov
    have hnd' : cs.Nodup := (List.nodup_cons.mp hnd).2
    have hcnotin : c ∉ cs := (List.nodup_cons.mp hnd).1
    rw [List.map_cons, List.sum_cons]
    have hfib : ∀ c' ∈ cs,
        l.filter (fun x => key x == c')
          = (l.filter (fun x => !(key x == c))).filter (fun x => key x == c') := by
      intro c' hc'
      rw [filter_filter_eq]
      apply List.filter_congr
      intro x _
      have hcne : c' ≠ c := fun h => hcnotin (h ▸ hc')
      by_cases hk : key x = c'
      · simp [hk, hcne]
      · simp [hk]
    have hcs : (cs.map (fun c' => ((l.filter (fun x => key x == c')).map f).sum)).sum
        = ((l.filter (fun x => !(key x == c))).map f).sum := by
      rw [← ih (l.filter (fun x => !(key x == c))) hnd' ?_]
      · apply congrArg
        apply List.map_congr_left
        intro c' hc'
        rw [hfib c' hc']
      · intro x hx
        rw [List.mem_filter] at hx
        have hmem := hcov x hx.1
        have hne : key x ≠ c := by simpa using hx.2
        rcases List.mem_cons.mp hmem with h | h
        · exact absurd h hne
        · exact h
    rw [hcs]
    exact sum_filter_add_sum_filter_not _ f l

lemma totals_at_eq (tp : Tipo) (filtered : List Tx) (y : Int) (m : Nat) :
    (((cfRowKeys filtered).filter (fun key => key.1 == tp)).map
        (fun key => cfRowMonthValue filtered key y m)).sum
      = ((filtered.filter (fun tx => tx.tipo == tp && txYearMonth tx == (y, m))).map
          (fun tx => tx.valor)).sum := by
  have hnodup : ((cfRowKeys filtered).filter (fun key => key.1 == tp)).Nodup :=
    (List.nodup_dedup _).filter _
  have hcov : ∀ x ∈ filtered.filter (fun tx => tx.tipo == tp && txYearMonth tx == (y, m)),
      cfRowKey x ∈ (cfRowKeys filtered).filter (fun key => key.1 == tp) := by
    intro x hx
    rw [List.mem_filter] at hx
    obtain ⟨hxf, hcond⟩ := hx
    simp only [Bool.and_eq_true, beq_iff_eq] at hcond
    rw [List.mem_filter]
    refine ⟨?_, ?_⟩
    · unfold cfRowKeys
      rw [List.mem_dedup]
      exact List.mem_map_of_mem cfRowKey hxf
    · simp [cfRowKey, hcond.1]
  have hfib : ∀ key ∈ (cfRowKeys filtered).filter (fun k => k.1 == tp),
      cfRowMonthValue filtered key y m
        = (((filtered.filter (fun tx => tx.tipo == tp && txYearMonth tx == (y, m))).filter
            (fun x => cfRowKey x == key)).map (fun tx => tx.valor)).sum := by
    intro key hkey
    rw [List.mem_filter] at hkey
    have hk1 : key.1 = tp := by simpa using hkey.2
    unfold cfRowMonthValue
    rw [filter_filter_eq]
    refine congrArg _ (congrArg _ (List.filter_congr fun x _ => ?_))
    by_cases hck : cfRowKey x = key
    · have htp : x.tipo = tp := by rw [← hk1, ← hck]; rfl
      simp [hck, htp]
    · have hb : (cfRowKey x == key) = false := by simp [hck]
      simp [hb]
  calc (((cfRowKeys filtered).filter (fun key => key.1 == tp)).map
        (fun key => cfRowMonthValue filtered key y m)).sum
      = (((cfRowKeys filtered).filter (fun key => key.1 == tp)).map
          (fun key => (((filtered.filter
              (fun tx => tx.tipo == tp && txYearMonth tx == (y, m))).filter
            (fun x => cfRowKey x == key)).map (fun tx => tx.valor)).sum)).sum :=
        congrArg _ (List.map_congr_left hfib)
    _ = _ := filter_fiber_sum cfRowKey _ _ _ hnodup hcov

lemma getD_map_lt {α β : Type} (f : α → β) (l : List α) (d : β) (da : α) {k : Nat}
    (hk : k < l.length) :
    (l.map f).getD k d = f (l.getD k da) := by
  rw [List.getD_eq_getElem?_getD, List.getElem?_map, List.getElem?_eq_getElem hk,
    List.getD_eq_getElem?_getD, List.getElem?_eq_getElem hk]
  rfl

/-- C3 counterexample: with one active account opening at 100.00 and pending
receivables of 10.00 in January and 5.00 in February 2026, the source
reports final balances [10.00, 5.00] (a fixed 0.00 start plus only the
current month net), while the claim demands [110.00, 115.00] (opening sum
plus cumulative nets). -/
theorem cashflow_running_balance_counterexample :
    totalsSaldoFinalList [cashflowTxJan, cashflowTxFev] "futuro" ⟨2026, 1, 1⟩ ⟨2026, 2, 28⟩
        = [1000, 500] ∧
    runningBalanceClaim sampleAccounts [cashflowTxJan, cashflowTxFev] "futuro"
        ⟨2026, 1, 1⟩ ⟨2026, 2, 28⟩ = [11000, 11500] ∧
    totalsSaldoFinalList [cashflowTxJan, cashflowTxFev] "futuro" ⟨2026, 1, 1⟩ ⟨2026, 2, 28⟩
      ≠ runningBalanceClaim sampleAccounts [cashflowTxJan, cashflowTxFev] "futuro"
        ⟨2026, 1, 1⟩ ⟨2026, 2, 28⟩ := by
  decide

/-- C3 amended: the reported final-balance series starts from the constant
0.00 (the account opening balances are not consulted) and its value for
month k is that constant plus the net — income minus expense — of month k
alone, with no carry-forward across months. -/
theorem cashflow_running_balance_amended (txs : List Tx) (phase : String) (s e : Date)
    (k : Nat) (hk : k < (monthList s e).length) :
    saldoInicialTotal = 0 ∧
    (totalsSaldoFinalList txs phase s e).getD k 0
      = saldoInicialTotal
        + ((((applyPhaseFilter txs phase s e).filter (fun tx =>
              tx.tipo == Tipo.receita && txYearMonth tx == (monthList s e).getD k (0, 1))).map
            (fun tx => tx.valor)).sum
          - (((applyPhaseFilter txs phase s e).filter (fun tx =>
              tx.tipo == Tipo.despesa && txYearMonth tx == (monthList s e).getD k (0, 1))).map
            (fun tx => tx.valor)).sum) := by
  refine ⟨rfl, ?_⟩
  unfold totalsSaldoFinalList
  rw [getD_map_lt _ _ _ (0, 1) hk]
  unfold totalsSaldoAt totalsReceitaAt totalsDespesaAt
  rw [totals_at_eq, totals_at_eq]

/-- Witness for C3 amended at an empty transaction set over the two-month
range January to February 2026. -/
theorem cashflow_running_balance_amended_witness : saldoInicialTotal = 0 :=
  (cashflow_running_balance_amended [] "futuro" ⟨2026, 1, 1⟩ ⟨2026, 2, 28⟩ 0 (by decide)).1

end MarcelleFlow
